import Mathlib

/-!
Shallow embedding of the session and command arbitration subsystem of the
netresponders platform (Cloud Functions in the main backend file).
Firestore collections become lists of records; each callable becomes a pure
function from its arguments and a database snapshot to `Except` of an error
or a return value paired with the new database.  A thrown `HttpsError`
(or plain `Error`) aborts the whole operation before any write, and every
multi-write operation in the source is a Firestore transaction or batch, so
modelling an error as returning no new state is faithful: an error leaves
the database exactly as it was.  Timestamps are integer milliseconds;
`new Date()` becomes an explicit `now` argument, and Firestore's generated
document ids become an explicit `freshId` argument.
-/

namespace NetResponders

/-- Error kinds of the HttpsError taxonomy; `internalErr` stands for a plain
thrown `Error` (surfaced as an internal failure, not an HttpsError code). -/
inductive ErrKind where
  | invalidArgument
  | notFound
  | permissionDenied
  | failedPrecondition
  | alreadyExists
  | internalErr
  deriving DecidableEq, Repr

/-- Structured failure: kind plus the message thrown by the source. -/
structure CallError where
  kind : ErrKind
  msg : String
  deriving DecidableEq, Repr

/-- Customer (tenant) configuration document: the two quota fields used by the
arbitration code; either may be absent, and the code applies `|| 1`. -/
structure Customer where
  id : String
  maxTotalSessions : Option Nat
  maxCommandLicenses : Option Nat
  deriving DecidableEq, Repr

/-- Session document: one authenticated device/browser instance. -/
structure Session where
  id : String
  uid : String
  customerId : String
  loginTime : Int
  lastActive : Int
  deriving DecidableEq, Repr

/-- Incident document, restricted to the fields the arbitration code reads or
writes (incidentNumber, incidentName, timestamps are never consulted by the
session/command logic). -/
structure Incident where
  id : String
  customerId : String
  status : String
  commanderUid : Option String
  commanderSessionId : Option String
  deriving DecidableEq, Repr

/-- CommandRequest document as created by requestIncidentCommand. -/
structure CommandRequest where
  id : String
  incidentId : String
  requesterUid : String
  requesterSessionId : Option String
  currentCommanderUid : String
  status : String
  customerId : String
  deriving DecidableEq, Repr

/-- Database snapshot: the four collections the subsystem touches. -/
structure DB where
  customers : List Customer
  sessions : List Session
  incidents : List Incident
  requests : List CommandRequest
  deriving DecidableEq, Repr

/-- JavaScript `x || 1` applied to a possibly missing numeric quota field. -/
def orOne : Option Nat → Nat
  | none => 1
  | some 0 => 1
  | some (n + 1) => n + 1

/-- JavaScript truthiness of a possibly missing string field. -/
def truthy : Option String → Bool
  | none => false
  | some s => !s.isEmpty

/-- Firestore `collection.doc(id).get()` on the customers collection. -/
def findCustomer (customerId : String) (db : DB) : Option Customer :=
  db.customers.find? (fun c => c.id == customerId)

/-- Firestore `collection.doc(id).get()` on the sessions collection. -/
def findSession (sessionId : String) (db : DB) : Option Session :=
  db.sessions.find? (fun s => s.id == sessionId)

/-- Firestore `collection.doc(id).get()` on the incidents collection. -/
def findIncident (incidentId : String) (db : DB) : Option Incident :=
  db.incidents.find? (fun i => i.id == incidentId)

/-- Firestore `collection.doc(id).get()` on the commandRequests collection. -/
def findRequest (requestId : String) (db : DB) : Option CommandRequest :=
  db.requests.find? (fun r => r.id == requestId)

/-- Query `sessions.where(customerId == T)`. -/
def tenantSessions (customerId : String) (db : DB) : List Session :=
  db.sessions.filter (fun s => s.customerId == customerId)

/-- Number of sessions of a tenant. -/
def sessionCount (customerId : String) (db : DB) : Nat :=
  (tenantSessions customerId db).length

/-- The tenant session quota, as the code reads it (`|| 1` default). -/
def maxTotalSessionsOf (customerId : String) (db : DB) : Nat :=
  orOne ((findCustomer customerId db).bind Customer.maxTotalSessions)

/-- Query `incidents.where(customerId).where(commanderUid == uid).where(status == Active)`
used by the privileged re-entry check of createSession. -/
def commandedBy (uid customerId : String) (db : DB) : List Incident :=
  db.incidents.filter (fun i =>
    i.customerId == customerId && i.commanderUid == some uid && i.status == "Active")

/-- Query `incidents.where(customerId).where(status == Active).where(commanderUid != null)`
used by the license gates. -/
def activeCommanded (customerId : String) (db : DB) : List Incident :=
  db.incidents.filter (fun i =>
    i.customerId == customerId && i.status == "Active" && i.commanderUid.isSome)

/-- Number of Active incidents of a tenant holding a command license. -/
def commandingCount (customerId : String) (db : DB) : Nat :=
  (activeCommanded customerId db).length

/-- Query `incidents.where(customerId).where(status == Active).where(commanderSessionId != null)`
used by the general-bumping check of createSession. -/
def activeSessionCommanded (customerId : String) (db : DB) : List Incident :=
  db.incidents.filter (fun i =>
    i.customerId == customerId && i.status == "Active" && i.commanderSessionId.isSome)

/-- Query `incidents.where(customerId).where(commanderUid == uid).where(docId != incidentId)`
of the single-incident gate (note: the source puts no status filter here). -/
def otherCommanded (uid customerId incidentId : String) (db : DB) : List Incident :=
  db.incidents.filter (fun i =>
    i.customerId == customerId && i.commanderUid == some uid && !(i.id == incidentId))

/-- Query `commandRequests.where(incidentId).where(status == pending)`. -/
def pendingFor (incidentId : String) (db : DB) : List CommandRequest :=
  db.requests.filter (fun r => r.incidentId == incidentId && r.status == "pending")

/-- Number of pending command requests for an incident. -/
def pendingCount (incidentId : String) (db : DB) : Nat :=
  (pendingFor incidentId db).length

/-- Message constants, verbatim from the source. -/
def customerNotFoundMsg : String := "Customer not found."

def slotsFullMsg : String :=
  "All available device slots are currently in active use. Please log out from another device or wait for one to become inactive."

def sessionIdRequiredMsg : String := "A sessionId is required."

def sessionGoneMsg : String := "Session not found or access denied."

def idsRequiredMsg : String := "Incident ID and Session ID are required."

def sessionInvalidMsg : String := "Your session is invalid. Please log in again."

def customerProfileMsg : String := "Customer profile not found."

def incidentAccessMsg : String := "Incident not found or access denied."

def licensesInUseMsg : String :=
  "All available command licenses for your department are currently in use."

def alreadyCommandingMsg : String :=
  "This account is already commanding another active incident. Please close it first."

def reqIdsRequiredMsg : String :=
  "Incident ID and Session ID are required for a request."

def incidentsDocNotFoundMsg : String := "incidents document not found."

def accessDeniedIncidentsMsg : String := "Access denied to incidents document."

def notCommandedMsg : String :=
  "This incident is not currently commanded. You can take command directly."

def alreadyCommanderMsg : String := "You are already the commander of this incident."

def requestPendingMsg : String :=
  "A command request for this incident is already pending."

def requestIdRequiredApproveMsg : String := "A Request ID is required to approve command."

def requestNotFoundMsg : String := "Command request not found."

def notAuthorizedApproveMsg : String := "You are not authorized to approve this request."

def requesterSessionMissingMsg : String :=
  "Cannot approve: Requester session ID is missing."

def missingIncidentUpdateMsg : String := "No document to update."

def requestIdRequiredMsg : String := "Request ID is required."

def notAuthorizedDenyMsg : String := "You are not authorized to deny this request."

def incidentNotFoundMsg : String := "Incident not found."

def notCurrentCommanderMsg : String :=
  "Permission denied. You are not the current commander."

def sessionRequiredStartMsg : String :=
  "A valid sessionId is required to start an incident."

def incidentIdRequiredMsg : String := "Incident ID is required."

def onlyCommanderCloseMsg : String := "Only the active commander can close this incident."

/-- A session is stale for the 15-minute general-bumping threshold. -/
def bumpStaleAt (now : Int) (s : Session) : Prop :=
  s.lastActive < now - 15 * 60 * 1000

instance (now : Int) (s : Session) : Decidable (bumpStaleAt now s) := by
  unfold bumpStaleAt; infer_instance

/-- Fold step of the oldest-stale-session search in createSession check 3:
skip commanding sessions and sessions inside the 15-minute window, otherwise
keep the session with the strictly oldest lastActive seen so far. -/
def staleCandidate (commandingSessionIds : List String) (now : Int)
    (acc : Option Session) (s : Session) : Option Session :=
  if ¬ commandingSessionIds.contains s.id ∧ bumpStaleAt now s then
    match acc with
    | none => some s
    | some o => if s.lastActive < o.lastActive then some s else some o
  else acc

/-- createSession: hierarchical admission.  Check 1 admits into an open slot;
at quota, check 2 (privileged re-entry) bumps the recorded commanding session
of an Active incident the caller commands; check 3 bumps the oldest
non-commanding session stale beyond 15 minutes; otherwise the call fails with
a capacity error.  `freshId` stands for the Firestore-generated document id. -/
def createSession (uid customerId : String) (now : Int) (freshId : String)
    (db : DB) : Except CallError (String × DB) :=
  match findCustomer customerId db with
  | none => .error ⟨.notFound, customerNotFoundMsg⟩
  | some customerDoc =>
    let newSession : Session := ⟨freshId, uid, customerId, now, now⟩
    if sessionCount customerId db < orOne customerDoc.maxTotalSessions then
      .ok (freshId, { db with sessions := db.sessions ++ [newSession] })
    else
      let privileged : Option String :=
        (commandedBy uid customerId db).head?.bind (fun incidentDoc =>
          if truthy incidentDoc.commanderSessionId then
            incidentDoc.commanderSessionId
          else none)
      match privileged with
      | some oldSessionId =>
        .ok (freshId, { db with sessions :=
          (db.sessions.filter (fun s => !(s.id == oldSessionId))) ++ [newSession] })
      | none =>
        let commandingSessionIds :=
          (activeSessionCommanded customerId db).filterMap Incident.commanderSessionId
        let oldestStaleSession :=
          (tenantSessions customerId db).foldl
            (staleCandidate commandingSessionIds now) none
        match oldestStaleSession with
        | some victim =>
          .ok (freshId, { db with sessions :=
            (db.sessions.filter (fun s => !(s.id == victim.id))) ++ [newSession] })
        | none => .error ⟨.permissionDenied, slotsFullMsg⟩

/-- endSession: deletes the session if it exists and is owned by the caller;
otherwise an acknowledged no-op. -/
def endSession (uid sessionId : String) (db : DB) :
    Except CallError (String × DB) :=
  if sessionId.isEmpty then .error ⟨.invalidArgument, sessionIdRequiredMsg⟩
  else
    match findSession sessionId db with
    | some sessionDoc =>
      if sessionDoc.uid == uid then
        .ok ("Session ended successfully.",
          { db with sessions := db.sessions.filter (fun s => !(s.id == sessionId)) })
      else .ok (sessionGoneMsg, db)
    | none => .ok (sessionGoneMsg, db)

/-- takeIncidentCommand: validates arguments, session ownership, customer and
incident, then inside one transaction runs the license gate (with the
own-incident exemption) and the single-incident gate before writing both
commander fields.  Any thrown error aborts the transaction, so an error
leaves the database untouched. -/
def takeIncidentCommand (uid customerId incidentId sessionId : String)
    (db : DB) : Except CallError (String × DB) :=
  if incidentId.isEmpty || sessionId.isEmpty then
    .error ⟨.invalidArgument, idsRequiredMsg⟩
  else
    match findSession sessionId db with
    | none => .error ⟨.permissionDenied, sessionInvalidMsg⟩
    | some sessionDoc =>
      if ¬ sessionDoc.uid = uid then .error ⟨.permissionDenied, sessionInvalidMsg⟩
      else
        match findCustomer customerId db with
        | none => .error ⟨.internalErr, customerProfileMsg⟩
        | some customerDoc =>
          match findIncident incidentId db with
          | none => .error ⟨.internalErr, incidentAccessMsg⟩
          | some incidentDoc =>
            if ¬ incidentDoc.customerId = customerId then
              .error ⟨.internalErr, incidentAccessMsg⟩
            else if orOne customerDoc.maxCommandLicenses ≤ commandingCount customerId db
                ∧ ¬ incidentDoc.commanderUid = some uid then
              .error ⟨.permissionDenied, licensesInUseMsg⟩
            else if ¬ otherCommanded uid customerId incidentId db = [] then
              .error ⟨.permissionDenied, alreadyCommandingMsg⟩
            else
              .ok ("command_granted", { db with incidents :=
                (db.incidents.map (fun i =>
                  if i.id == incidentId then
                    { i with commanderUid := some uid,
                             commanderSessionId := some sessionId }
                  else i)) })

/-- requestIncidentCommand: refuses uncommanded incidents and self-requests,
fails already-exists when a pending request for the incident exists, and
otherwise records a new pending CommandRequest carrying the requester's
session id and the current commander's uid. -/
def requestIncidentCommand (uid customerId incidentId sessionId : String)
    (freshId : String) (db : DB) : Except CallError (String × DB) :=
  if incidentId.isEmpty || sessionId.isEmpty then
    .error ⟨.invalidArgument, reqIdsRequiredMsg⟩
  else
    match findIncident incidentId db with
    | none => .error ⟨.internalErr, incidentsDocNotFoundMsg⟩
    | some incidentDoc =>
      if ¬ incidentDoc.customerId = customerId then
        .error ⟨.permissionDenied, accessDeniedIncidentsMsg⟩
      else if ¬ truthy incidentDoc.commanderUid = true then
        .error ⟨.failedPrecondition, notCommandedMsg⟩
      else if incidentDoc.commanderUid = some uid then
        .error ⟨.failedPrecondition, alreadyCommanderMsg⟩
      else if ¬ pendingFor incidentId db = [] then
        .error ⟨.alreadyExists, requestPendingMsg⟩
      else
        .ok (freshId, { db with requests := db.requests ++
          [⟨freshId, incidentId, uid, some sessionId,
            incidentDoc.commanderUid.getD "", "pending", customerId⟩] })

/-- approveCommandRequest: in one transaction, checks only that the caller is
the request's recorded currentCommanderUid and that a requester session id
was recorded (the request's status is never examined), then writes the two
incident commander fields and the request status together.  Firestore's
transaction.update on a missing incident document aborts the transaction, so
in that case nothing is written. -/
def approveCommandRequest (uid requestId : String) (db : DB) :
    Except CallError (String × DB) :=
  if requestId.isEmpty then .error ⟨.invalidArgument, requestIdRequiredApproveMsg⟩
  else
    match findRequest requestId db with
    | none => .error ⟨.internalErr, requestNotFoundMsg⟩
    | some requestDoc =>
      if ¬ requestDoc.currentCommanderUid = uid then
        .error ⟨.permissionDenied, notAuthorizedApproveMsg⟩
      else if ¬ truthy requestDoc.requesterSessionId = true then
        .error ⟨.internalErr, requesterSessionMissingMsg⟩
      else
        match findIncident requestDoc.incidentId db with
        | none => .error ⟨.notFound, missingIncidentUpdateMsg⟩
        | some _ =>
          .ok ("Command approved.", { db with
            incidents := db.incidents.map (fun i =>
              if i.id == requestDoc.incidentId then
                { i with commanderUid := some requestDoc.requesterUid,
                         commanderSessionId := requestDoc.requesterSessionId }
              else i),
            requests := db.requests.map (fun r =>
              if r.id == requestId then { r with status := "approved" } else r) })

/-- denyCommandRequest: same authorization check as approval (and likewise no
status check), then marks the request denied. -/
def denyCommandRequest (uid requestId : String) (db : DB) :
    Except CallError (String × DB) :=
  if requestId.isEmpty then .error ⟨.invalidArgument, requestIdRequiredMsg⟩
  else
    match findRequest requestId db with
    | none => .error ⟨.internalErr, requestNotFoundMsg⟩
    | some requestDoc =>
      if ¬ requestDoc.currentCommanderUid = uid then
        .error ⟨.permissionDenied, notAuthorizedDenyMsg⟩
      else
        .ok ("Request denied.", { db with requests := db.requests.map (fun r =>
          if r.id == requestId then { r with status := "denied" } else r) })

/-- reestablishCommand: requires only that the caller's uid equals the
incident's recorded commanderUid (no session lookup at all), then updates
commanderSessionId alone. -/
def reestablishCommand (uid incidentId sessionId : String) (db : DB) :
    Except CallError (String × DB) :=
  if incidentId.isEmpty || sessionId.isEmpty then
    .error ⟨.invalidArgument, idsRequiredMsg⟩
  else
    match findIncident incidentId db with
    | none => .error ⟨.internalErr, incidentNotFoundMsg⟩
    | some incidentDoc =>
      if ¬ incidentDoc.commanderUid = some uid then
        .error ⟨.permissionDenied, notCurrentCommanderMsg⟩
      else
        .ok ("command_reestablished", { db with incidents :=
          (db.incidents.map (fun i =>
            if i.id == incidentId then { i with commanderSessionId := some sessionId }
            else i)) })

/-- startNewIncident: the same two gates as takeIncidentCommand (the
single-incident gate here does filter on Active status), then the incident
is created already commanded by its creator.  Fields of the new incident not
read by the arbitration code (incidentNumber, name, timestamps) are omitted
from the model. -/
def startNewIncident (uid customerId sessionId : String) (freshId : String)
    (db : DB) : Except CallError (String × DB) :=
  if sessionId.isEmpty then .error ⟨.invalidArgument, sessionRequiredStartMsg⟩
  else
    match findCustomer customerId db with
    | none => .error ⟨.internalErr, customerProfileMsg⟩
    | some customerDoc =>
      if orOne customerDoc.maxCommandLicenses ≤ commandingCount customerId db then
        .error ⟨.permissionDenied, licensesInUseMsg⟩
      else if ¬ commandedBy uid customerId db = [] then
        .error ⟨.failedPrecondition, alreadyCommandingMsg⟩
      else
        .ok (freshId, { db with incidents := db.incidents ++
          [⟨freshId, customerId, "Active", some uid, some sessionId⟩] })

/-- closeIncident: only the recorded commander may close; the same batch that
marks the incident Closed clears both commander fields.  The unit and
assignment bookkeeping in the source touches neither sessions nor incidents
nor requests, and both source branches write the identical incident update,
so it is omitted from the model. -/
def closeIncident (uid customerId incidentId : String) (db : DB) :
    Except CallError (String × DB) :=
  if incidentId.isEmpty then .error ⟨.internalErr, incidentIdRequiredMsg⟩
  else
    match findIncident incidentId db with
    | none => .error ⟨.internalErr, incidentsDocNotFoundMsg⟩
    | some incidentDoc =>
      if ¬ incidentDoc.customerId = customerId then
        .error ⟨.permissionDenied, accessDeniedIncidentsMsg⟩
      else if ¬ incidentDoc.commanderUid = some uid then
        .error ⟨.permissionDenied, onlyCommanderCloseMsg⟩
      else
        .ok ("Incident closed successfully.", { db with incidents :=
          (db.incidents.map (fun i =>
            if i.id == incidentId then
              { i with status := "Closed", commanderUid := none,
                       commanderSessionId := none }
            else i)) })

/-- A session is stale for the 2-hour hourly-reaper threshold. -/
def staleAt (now : Int) (s : Session) : Prop :=
  s.lastActive < now - 2 * 60 * 60 * 1000

instance (now : Int) (s : Session) : Decidable (staleAt now s) := by
  unfold staleAt; infer_instance

/-- Ids of the sessions stale at `now` (the hourly sweep's first query,
which has no tenant filter). -/
def staleSessionIds (now : Int) (db : DB) : List String :=
  (db.sessions.filter (fun s => staleAt now s)).map Session.id

/-- An incident the hourly sweep treats as locked by a stale session:
Active and recording a stale session as its commanderSessionId. -/
def lockedByStale (now : Int) (db : DB) (i : Incident) : Bool :=
  i.status == "Active" &&
    (match i.commanderSessionId with
     | some sid => (staleSessionIds now db).contains sid
     | none => false)

/-- Hourly sweep: clear both commander fields of every Active incident locked
by a stale session and delete exactly the stale sessions so recorded; returns
the new database and the number of batched writes. -/
def cleanupStaleCommandSessions (now : Int) (db : DB) : DB × Nat :=
  if (db.sessions.filter (fun s => staleAt now s)).isEmpty then (db, 0)
  else
    let lockedIncidents := db.incidents.filter (lockedByStale now db)
    if lockedIncidents.isEmpty then (db, 0)
    else
      let sessionsToDelete :=
        (lockedIncidents.filterMap Incident.commanderSessionId).dedup
      ({ db with
         incidents := db.incidents.map (fun i =>
           if lockedByStale now db i then
             { i with commanderUid := none, commanderSessionId := none }
           else i),
         sessions := db.sessions.filter (fun s => !(sessionsToDelete.contains s.id)) },
       lockedIncidents.length + sessionsToDelete.length)

/-- Daily sweep: delete up to 400 sessions older than 60 days, regardless of
command status; never touches incidents or requests. -/
def cleanupOldSessions (now : Int) (db : DB) : DB × Nat :=
  let oldSessions :=
    (db.sessions.filter (fun s => s.lastActive < now - 60 * 24 * 60 * 60 * 1000)).take 400
  if oldSessions.isEmpty then (db, 0)
  else
    let ids := oldSessions.map Session.id
    ({ db with sessions := db.sessions.filter (fun s => !(ids.contains s.id)) },
     oldSessions.length)

/-- Kind of the error a call produced, if it failed. -/
def errKindOf (r : Except CallError (String × DB)) : Option ErrKind :=
  match r with
  | .error e => some e.kind
  | .ok _ => none

/-- The full error a call produced, if it failed. -/
def errOf (r : Except CallError (String × DB)) : Option CallError :=
  match r with
  | .error e => some e
  | .ok _ => none

/-- The database state a call committed, if it succeeded. -/
def okState (r : Except CallError (String × DB)) : Option DB :=
  match r with
  | .error _ => none
  | .ok p => some p.2

/-- Outcome of a call with the sessions collection projected away: the error
or the return value together with the incident, request and customer
collections it committed. -/
def resSansSessions (r : Except CallError (String × DB)) :
    Except CallError (String × (List Customer × List Incident × List CommandRequest)) :=
  r.map (fun p => (p.1, (p.2.customers, p.2.incidents, p.2.requests)))

/-- Spec-side incident consistency (data-model sentence of the spec): both
commander fields null together, and a set commanderSessionId references an
existing session owned by commanderUid. -/
def incidentConsistent (db : DB) (i : Incident) : Bool :=
  (i.commanderUid.isNone == i.commanderSessionId.isNone) &&
    (match i.commanderSessionId with
     | none => true
     | some sid => db.sessions.any (fun s => s.id == sid && i.commanderUid == some s.uid))

/-- The weaker half of incident consistency: commanderUid and
commanderSessionId are both null or both set. -/
def cmdPaired (i : Incident) : Bool :=
  i.commanderUid.isNone == i.commanderSessionId.isNone

/-- Number of Active incidents a given user commands, across the store. -/
def activeCommandCount (u : String) (db : DB) : Nat :=
  (db.incidents.filter (fun i => i.commanderUid == some u && i.status == "Active")).length

/-- A session id is recorded as the commanding session of some Active
incident. -/
def recordsAsCommander (db : DB) (sid : String) : Prop :=
  ∃ i, i ∈ db.incidents ∧ i.status = "Active" ∧ i.commanderSessionId = some sid

/-- Tenant T at quota 1 whose single Active incident records a commander whose
commanderSessionId points at no existing session (the dangling pointer the
privileged re-entry path itself produces, since it deletes the old session
without updating the incident). -/
def danglingDB : DB :=
  ⟨[⟨"T", some 1, some 1⟩], [⟨"s0", "u2", "T", 0, 0⟩],
   [⟨"I", "T", "Active", some "u1", some "dead"⟩], []⟩

/-- Tenant at quota 1 where u1 commands incident I through live session sA:
the starting state of Scenario B. -/
def scenarioBDB : DB :=
  ⟨[⟨"T", some 1, some 1⟩], [⟨"sA", "u1", "T", 0, 0⟩],
   [⟨"I", "T", "Active", some "u1", some "sA"⟩], []⟩

/-- Store holding a command request that was already denied. -/
def deniedRequestDB : DB :=
  ⟨[⟨"T", some 5, some 5⟩], [⟨"sA", "u1", "T", 0, 0⟩, ⟨"s2", "u2", "T", 0, 0⟩],
   [⟨"I", "T", "Active", some "u1", some "sA"⟩],
   [⟨"R", "I", "u2", some "s2", "u1", "denied", "T"⟩]⟩

/-- Store with no incident documents at all. -/
def emptyIncidentsDB : DB := ⟨[⟨"T", some 5, some 5⟩], [], [], []⟩

/-- Store for the reaper: sessions sA and sB are stale at time 10000000,
sC is fresh; only sA is recorded as a commanding session. -/
def reaperDB : DB :=
  ⟨[⟨"T", some 5, some 5⟩],
   [⟨"sA", "u1", "T", 0, 0⟩, ⟨"sB", "u2", "T", 0, 0⟩, ⟨"sC", "u3", "T", 0, 10000000⟩],
   [⟨"I", "T", "Active", some "u1", some "sA"⟩], []⟩

/-- Tenant with a single command license already consumed by u1 on incident
I1; u2 holds live session s2 and incident I2 is uncommanded. -/
def licenseFullDB : DB :=
  ⟨[⟨"T", some 5, some 1⟩], [⟨"s2", "u2", "T", 0, 0⟩],
   [⟨"I1", "T", "Active", some "u1", some "sA"⟩, ⟨"I2", "T", "Active", none, none⟩],
   []⟩

/-- Store holding a pending command request from u2 (session s2) for incident
I, currently commanded by u1 via session sA. -/
def pendingRequestDB : DB :=
  ⟨[⟨"T", some 5, some 5⟩], [⟨"sA", "u1", "T", 0, 0⟩, ⟨"s2", "u2", "T", 0, 0⟩],
   [⟨"I", "T", "Active", some "u1", some "sA"⟩],
   [⟨"R", "I", "u2", some "s2", "u1", "pending", "T"⟩]⟩

/-- C1 counterexample: in `danglingDB` tenant T satisfies
count(Session) = 1 ≤ maxTotalSessions = 1, yet createSession for the recorded
commander u1 succeeds through privileged re-entry — the recorded commanding
session id names no existing session, so the deletion frees nothing — and
leaves T with 2 sessions, violating the quota invariant the claim asserts is
preserved by every single call. -/
theorem c1_quota_counterexample :
    sessionCount "T" danglingDB ≤ maxTotalSessionsOf "T" danglingDB ∧
    (createSession "u1" "T" 0 "s1" danglingDB).toOption.map
      (fun r => decide (sessionCount "T" r.2 ≤ maxTotalSessionsOf "T" r.2)) =
      some false := by
  decide

/-- C5 counterexample: Scenario B's own starting state satisfies the full
incident-consistency invariant, yet after the (successful) privileged
re-entry createSession the incident still records commanderSessionId sA
while session sA has been deleted — commanderSessionId no longer references
an existing session, so the invariant the claim asserts is preserved by
createSession fails. -/
theorem c5_consistency_counterexample :
    scenarioBDB.incidents.all (incidentConsistent scenarioBDB) = true ∧
    (createSession "u1" "T" 100 "sB" scenarioBDB).toOption.map
      (fun r => r.2.incidents.all (incidentConsistent r.2)) = some false := by
  decide

/-- C8 counterexample: request R has terminal status denied, yet
approveCommandRequest by the recorded commander u1 succeeds, changes R's
status to approved and applies the command transfer to the incident —
denied is not terminal, contradicting the claimed state machine. -/
theorem c8_terminality_counterexample :
    deniedRequestDB.requests.map CommandRequest.status = ["denied"] ∧
    (approveCommandRequest "u1" "R" deniedRequestDB).toOption.map
      (fun r => (r.2.requests.map CommandRequest.status,
                 r.2.incidents.map Incident.commanderUid)) =
      some (["approved"], [some "u2"]) := by
  decide

/-- C10 counterexample: when the incident does not exist, reestablishCommand
fails with a plain internal error (thrown Error), not with the
permission-denied failure the claim asserts for every non-success case. -/
theorem c10_errkind_counterexample :
    errOf (reestablishCommand "u1" "I" "s1" emptyIncidentsDB) =
      some ⟨.internalErr, incidentNotFoundMsg⟩ ∧
    ErrKind.internalErr ≠ ErrKind.permissionDenied := by
  decide

/-- C6: when the tenant's session count is at or above maxTotalSessions and
the caller is the recorded commander of the first Active incident the
privileged-re-entry query returns, with a non-null recorded commanding
session id, createSession succeeds, deletes that recorded commanding session
and creates and returns a new session owned by the caller. -/
theorem c6_privileged_reentry
    (uid customerId : String) (now : Int) (freshId : String) (db : DB)
    (c : Customer) (inc : Incident) (oldSid : String)
    (hc : findCustomer customerId db = some c)
    (hfull : orOne c.maxTotalSessions ≤ sessionCount customerId db)
    (hhead : (commandedBy uid customerId db).head? = some inc)
    (hsid : inc.commanderSessionId = some oldSid)
    (hne : ¬ oldSid = "") :
    createSession uid customerId now freshId db = .ok (freshId,
      { db with sessions :=
        (db.sessions.filter (fun s => !(s.id == oldSid))) ++
          [⟨freshId, uid, customerId, now, now⟩] }) := by
  have hemp : oldSid.isEmpty = false := by
    cases h : oldSid.isEmpty
    · rfl
    · exact absurd ((String.isEmpty_iff oldSid).mp h) hne
  unfold createSession
  rw [hc]
  simp only [hhead, hsid, truthy, hemp, Option.bind, if_neg (by omega : ¬ sessionCount customerId db < orOne c.maxTotalSessions)]
  simp

/-- C6 witness: Scenario B with quota 1 — the commander's second-device
createSession evicts recorded session sA and grants new session sB. -/
theorem c6_privileged_reentry_witness :
    createSession "u1" "T" 100 "sB" scenarioBDB = .ok ("sB",
      { scenarioBDB with sessions :=
        (scenarioBDB.sessions.filter (fun s => !(s.id == "sA"))) ++
          [⟨"sB", "u1", "T", 100, 100⟩] }) :=
  c6_privileged_reentry "u1" "T" 100 "sB" scenarioBDB
    ⟨"T", some 1, some 1⟩ ⟨"I", "T", "Active", some "u1", some "sA"⟩ "sA"
    (by decide) (by decide) (by decide) (by decide) (by decide)

/-- C10 (amended): given non-empty arguments, reestablishCommand succeeds
exactly when the incident exists and its recorded commanderUid equals the
caller's uid; when the incident exists but the commander differs it fails
with permission-denied changing nothing; when the incident is missing it
fails with a plain internal error (not permission-denied) changing nothing;
on success it updates only commanderSessionId of that incident, and the
whole outcome is independent of the sessions collection — no check that
sessionId names an existing session is ever performed. -/
theorem c10_reestablish_spec
    (uid incidentId sessionId : String) (db : DB)
    (hiid : ¬ incidentId = "") (hsid : ¬ sessionId = "") :
    (∀ inc, findIncident incidentId db = some inc →
       (inc.commanderUid = some uid →
          reestablishCommand uid incidentId sessionId db = .ok ("command_reestablished",
            { db with incidents :=
              (db.incidents.map (fun i =>
                if i.id == incidentId then { i with commanderSessionId := some sessionId }
                else i)) })) ∧
       (¬ inc.commanderUid = some uid →
          errOf (reestablishCommand uid incidentId sessionId db) =
            some ⟨.permissionDenied, notCurrentCommanderMsg⟩)) ∧
    (findIncident incidentId db = none →
       errOf (reestablishCommand uid incidentId sessionId db) =
         some ⟨.internalErr, incidentNotFoundMsg⟩) ∧
    (∀ l : List Session,
       resSansSessions (reestablishCommand uid incidentId sessionId { db with sessions := l }) =
         resSansSessions (reestablishCommand uid incidentId sessionId db)) := by
  have h1 : incidentId.isEmpty = false := by
    cases h : incidentId.isEmpty
    · rfl
    · exact absurd ((String.isEmpty_iff incidentId).mp h) hiid
  have h2 : sessionId.isEmpty = false := by
    cases h : sessionId.isEmpty
    · rfl
    · exact absurd ((String.isEmpty_iff sessionId).mp h) hsid
  refine ⟨fun inc hinc => ⟨fun hcmd => ?_, fun hcmd => ?_⟩, fun hnone => ?_, fun l => ?_⟩
  · unfold reestablishCommand
    simp [h1, h2, hinc, hcmd]
  · unfold reestablishCommand
    simp [h1, h2, hinc, hcmd, errOf]
  · unfold reestablishCommand
    simp [h1, h2, hnone, errOf]
  · unfold reestablishCommand
    have hsame : findIncident incidentId { db with sessions := l } =
        findIncident incidentId db := rfl
    rw [hsame]
    cases hfi : findIncident incidentId db with
    | none => simp [h1, h2]
    | some inc =>
      by_cases hcmd : inc.commanderUid = some uid
      · simp [h1, h2, hcmd, resSansSessions, Except.map]
      · simp [h1, h2, hcmd, resSansSessions, Except.map]

/-- C10 witness: in a store where u1 commands incident I via a long-dead
session, reestablishCommand from new session s9 succeeds and rewrites only
commanderSessionId. -/
theorem c10_reestablish_witness :
    reestablishCommand "u1" "I" "s9" scenarioBDB = .ok ("command_reestablished",
      { scenarioBDB with incidents :=
        (scenarioBDB.incidents.map (fun i =>
          if i.id == "I" then { i with commanderSessionId := some "s9" } else i)) }) :=
  ((c10_reestablish_spec "u1" "I" "s9" scenarioBDB (by decide) (by decide)).1
    ⟨"I", "T", "Active", some "u1", some "sA"⟩ (by decide)).1 (by decide)

/-- C3: approveCommandRequest fails with permission-denied (writing nothing
— the failure aborts the transaction) whenever the approver's uid differs
from the request's recorded currentCommanderUid; when it matches and the
request records a requester session id (and the incident document exists,
else Firestore's transaction.update aborts writing nothing), one transaction
sets the incident's commanderUid to the requester, its commanderSessionId to
the recorded requester session, and the request's status to approved — the
three writes appear in the single committed state or not at all. -/
theorem c3_approve_auth_and_transfer
    (uid requestId : String) (db : DB) (req : CommandRequest)
    (hrid : ¬ requestId = "")
    (hr : findRequest requestId db = some req) :
    (¬ req.currentCommanderUid = uid →
       errOf (approveCommandRequest uid requestId db) =
         some ⟨.permissionDenied, notAuthorizedApproveMsg⟩) ∧
    (∀ rsid inc, req.currentCommanderUid = uid → req.requesterSessionId = some rsid →
       ¬ rsid = "" → findIncident req.incidentId db = some inc →
       approveCommandRequest uid requestId db = .ok ("Command approved.",
         { db with
           incidents := (db.incidents.map (fun i =>
             if i.id == req.incidentId then
               { i with commanderUid := some req.requesterUid,
                        commanderSessionId := some rsid }
             else i)),
           requests := (db.requests.map (fun r =>
             if r.id == requestId then { r with status := "approved" } else r)) })) := by
  have h1 : requestId.isEmpty = false := by
    cases h : requestId.isEmpty
    · rfl
    · exact absurd ((String.isEmpty_iff requestId).mp h) hrid
  constructor
  · intro hauth
    unfold approveCommandRequest
    simp [h1, hr, hauth, errOf]
  · intro rsid inc hauth hrs hne hinc
    have hemp : rsid.isEmpty = false := by
      cases h : rsid.isEmpty
      · rfl
      · exact absurd ((String.isEmpty_iff rsid).mp h) hne
    unfold approveCommandRequest
    simp [h1, hr, hauth, hrs, hinc, truthy, hemp]

/-- C3 witness: commander u1 approves pending request R; the committed state
shows the incident transferred to u2 with u2's recorded session s2 and the
request marked approved. -/
theorem c3_approve_witness :
    approveCommandRequest "u1" "R" pendingRequestDB = .ok ("Command approved.",
      { pendingRequestDB with
        incidents := (pendingRequestDB.incidents.map (fun i =>
          if i.id == "I" then
            { i with commanderUid := some "u2", commanderSessionId := some "s2" }
          else i)),
        requests := (pendingRequestDB.requests.map (fun r =>
          if r.id == "R" then { r with status := "approved" } else r)) }) :=
  (c3_approve_auth_and_transfer "u1" "R" pendingRequestDB
      ⟨"R", "I", "u2", some "s2", "u1", "pending", "T"⟩ (by decide) (by decide)).2
    "s2" ⟨"I", "T", "Active", some "u1", some "sA"⟩
    (by decide) (by decide) (by decide) (by decide)

/-- C8 (amended): approval and denial gate only on the caller being the
request's recorded currentCommanderUid — the request's status is never
examined, so approved/denied are not terminal and the recorded commander can
resolve a request again (re-applying the transfer, as the counterexample
shows on a denied request); the only one-way guarantee of the state machine
is that neither call ever returns any request to status pending. -/
theorem c8_handoff_guards
    (uid requestId : String) (db : DB) (req : CommandRequest)
    (hrid : ¬ requestId = "")
    (hr : findRequest requestId db = some req)
    (hauth : req.currentCommanderUid = uid) :
    (denyCommandRequest uid requestId db = .ok ("Request denied.",
       { db with requests := (db.requests.map (fun r =>
         if r.id == requestId then { r with status := "denied" } else r)) })) ∧
    (∀ rsid inc, req.requesterSessionId = some rsid → ¬ rsid = "" →
       findIncident req.incidentId db = some inc →
       errOf (approveCommandRequest uid requestId db) = none) ∧
    (∀ v db', approveCommandRequest uid requestId db = .ok (v, db') →
       ∀ r', r' ∈ db'.requests → r'.status = "pending" →
         ∃ r, r ∈ db.requests ∧ r.id = r'.id ∧ r.status = "pending") ∧
    (∀ v db', denyCommandRequest uid requestId db = .ok (v, db') →
       ∀ r', r' ∈ db'.requests → r'.status = "pending" →
         ∃ r, r ∈ db.requests ∧ r.id = r'.id ∧ r.status = "pending") := by
  have h1 : requestId.isEmpty = false := by
    cases h : requestId.isEmpty
    · rfl
    · exact absurd ((String.isEmpty_iff requestId).mp h) hrid
  refine ⟨?_, ?_, ?_, ?_⟩
  · unfold denyCommandRequest
    simp [h1, hr, hauth]
  · intro rsid inc hrs hne hinc
    have hemp : rsid.isEmpty = false := by
      cases h : rsid.isEmpty
      · rfl
      · exact absurd ((String.isEmpty_iff rsid).mp h) hne
    unfold approveCommandRequest
    simp [h1, hr, hauth, hrs, hinc, truthy, hemp, errOf]
  · intro v db' h r' hmem hpend
    unfold approveCommandRequest at h
    repeat' split at h
    all_goals try exact Except.noConfusion h
    rw [Except.ok.injEq, Prod.mk.injEq] at h
    obtain ⟨-, hdb⟩ := h
    subst hdb
    simp only [List.mem_map] at hmem
    obtain ⟨r, hrmem, hre⟩ := hmem
    by_cases hid : r.id == requestId
    · rw [if_pos hid] at hre
      subst hre
      simp at hpend
    · rw [if_neg hid] at hre
      subst hre
      exact ⟨r, hrmem, rfl, hpend⟩
  · intro v db' h r' hmem hpend
    unfold denyCommandRequest at h
    repeat' split at h
    all_goals try exact Except.noConfusion h
    rw [Except.ok.injEq, Prod.mk.injEq] at h
    obtain ⟨-, hdb⟩ := h
    subst hdb
    simp only [List.mem_map] at hmem
    obtain ⟨r, hrmem, hre⟩ := hmem
    by_cases hid : r.id == requestId
    · rw [if_pos hid] at hre
      subst hre
      simp at hpend
    · rw [if_neg hid] at hre
      subst hre
      exact ⟨r, hrmem, rfl, hpend⟩

/-- C8 witness: u1 denies pending request R; the request's status becomes
denied and no request returns to pending. -/
theorem c8_handoff_guards_witness :
    denyCommandRequest "u1" "R" pendingRequestDB = .ok ("Request denied.",
      { pendingRequestDB with requests := (pendingRequestDB.requests.map (fun r =>
        if r.id == "R" then { r with status := "denied" } else r)) }) :=
  (c8_handoff_guards "u1" "R" pendingRequestDB
      ⟨"R", "I", "u2", some "s2", "u1", "pending", "T"⟩
      (by decide) (by decide) (by decide)).1

/-- C2: with the tenant configuration and target incident in place, whenever
the number of Active incidents with a non-null commander is at or above
maxCommandLicenses and the target incident's commander is not the caller,
takeIncidentCommand fails with permission-denied (the aborted transaction
writes nothing); a caller who already is the target's recorded commander
never receives the license-gate denial, and with a valid session and no
other commanded incident such a caller retakes their own incident
successfully. -/
theorem c2_license_gate
    (uid customerId incidentId sessionId : String) (db : DB)
    (c : Customer) (inc : Incident)
    (hiid : ¬ incidentId = "") (hsid : ¬ sessionId = "")
    (hc : findCustomer customerId db = some c)
    (hi : findIncident incidentId db = some inc)
    (hten : inc.customerId = customerId) :
    (orOne c.maxCommandLicenses ≤ commandingCount customerId db →
       ¬ inc.commanderUid = some uid →
       errKindOf (takeIncidentCommand uid customerId incidentId sessionId db) =
         some .permissionDenied) ∧
    (inc.commanderUid = some uid →
       ¬ errOf (takeIncidentCommand uid customerId incidentId sessionId db) =
           some ⟨.permissionDenied, licensesInUseMsg⟩) ∧
    (∀ s, findSession sessionId db = some s → s.uid = uid →
       inc.commanderUid = some uid →
       otherCommanded uid customerId incidentId db = [] →
       takeIncidentCommand uid customerId incidentId sessionId db =
         .ok ("command_granted", { db with incidents := (db.incidents.map (fun i =>
           if i.id == incidentId then
             { i with commanderUid := some uid, commanderSessionId := some sessionId }
           else i)) })) := by
  have h1 : incidentId.isEmpty = false := by
    cases h : incidentId.isEmpty
    · rfl
    · exact absurd ((String.isEmpty_iff incidentId).mp h) hiid
  have h2 : sessionId.isEmpty = false := by
    cases h : sessionId.isEmpty
    · rfl
    · exact absurd ((String.isEmpty_iff sessionId).mp h) hsid
  refine ⟨fun hcnt hnot => ?_, fun hcmd => ?_, fun s hs hsu hcmd hother => ?_⟩
  · unfold takeIncidentCommand
    cases hfs : findSession sessionId db with
    | none => simp [h1, h2, hfs, errKindOf]
    | some s =>
      by_cases hsu : s.uid = uid
      · simp [h1, h2, hfs, hsu, hc, hi, hten, hcnt, hnot, errKindOf]
      · simp [h1, h2, hfs, hsu, errKindOf]
  · unfold takeIncidentCommand
    cases hfs : findSession sessionId db with
    | none => simp [h1, h2, hfs, errOf, sessionInvalidMsg, licensesInUseMsg]
    | some s =>
      by_cases hsu : s.uid = uid
      · by_cases hoc : otherCommanded uid customerId incidentId db = []
        · simp [h1, h2, hfs, hsu, hc, hi, hten, hcmd, hoc, errOf]
        · simp [h1, h2, hfs, hsu, hc, hi, hten, hcmd, hoc, errOf,
            alreadyCommandingMsg, licensesInUseMsg]
      · simp [h1, h2, hfs, hsu, errOf, sessionInvalidMsg, licensesInUseMsg]
  · unfold takeIncidentCommand
    simp [h1, h2, hs, hsu, hc, hi, hten, hcmd, hother]

/-- C2 witness: with one command license consumed by u1, user u2 (valid
session s2) is denied permission when taking command of uncommanded incident
I2. -/
theorem c2_license_gate_witness :
    errKindOf (takeIncidentCommand "u2" "T" "I2" "s2" licenseFullDB) =
      some .permissionDenied :=
  (c2_license_gate "u2" "T" "I2" "s2" licenseFullDB
      ⟨"T", some 5, some 1⟩ ⟨"I2", "T", "Active", none, none⟩
      (by decide) (by decide) (by decide) (by decide) (by decide)).1
    (by decide) (by decide)

/-- Rewriting one request's status to a non-pending value never increases the
number of pending requests of any incident. -/
theorem pending_le_of_status_rewrite (incId rid st : String)
    (hst : ¬ st = "pending") (l : List CommandRequest) :
    ((l.map (fun r => if r.id == rid then { r with status := st } else r)).filter
        (fun r => r.incidentId == incId && r.status == "pending")).length ≤
      (l.filter (fun r => r.incidentId == incId && r.status == "pending")).length := by
  rw [← List.countP_eq_length_filter, ← List.countP_eq_length_filter, List.countP_map]
  refine List.countP_mono_left (fun r hr hp => ?_)
  simp only [Function.comp] at hp
  by_cases hid : r.id == rid
  · rw [if_pos hid] at hp
    simp only [Bool.and_eq_true, beq_iff_eq] at hp
    exact absurd hp.2 hst
  · rw [if_neg hid] at hp
    exact hp

/-- Appending one request for incident `iid` keeps every incident's pending
count at most one, provided incident `iid` had no pending request. -/
theorem pending_append_le (incId iid : String) (db : DB) (req : CommandRequest)
    (hreq : req.incidentId = iid)
    (hempty : pendingFor iid db = [])
    (hle : pendingCount incId db ≤ 1) :
    pendingCount incId { db with requests := db.requests ++ [req] } ≤ 1 := by
  unfold pendingFor at hempty
  unfold pendingCount pendingFor at hle ⊢
  simp only [List.filter_append, List.length_append]
  by_cases hii : incId = iid
  · subst hii
    rw [hempty]
    have : (List.filter (fun r => r.incidentId == incId && r.status == "pending")
        [req]).length ≤ 1 := by
      by_cases hp : (req.incidentId == incId && req.status == "pending") = true
      · simp [List.filter, hp]
      · simp [List.filter, hp]
    simpa using this
  · have : (List.filter (fun r => r.incidentId == incId && r.status == "pending")
        [req]).length = 0 := by
      have hne : (req.incidentId == incId) = false := by
        rw [hreq]
        exact beq_false_of_ne (fun hx => hii hx.symm)
      simp [List.filter, hne]
    omega

/-- C7: while a pending CommandRequest exists for an incident, a further
requestIncidentCommand on it fails with already-exists (and, pending request
or not, no call can commit a new request while one is pending); moreover
requestIncidentCommand, approveCommandRequest and denyCommandRequest each
preserve at-most-one-pending-request-per-incident. -/
theorem c7_pending_unique (incId : String) (db : DB) :
    (∀ uid customerId sessionId freshId inc,
       ¬ incId = "" → ¬ sessionId = "" →
       findIncident incId db = some inc → inc.customerId = customerId →
       truthy inc.commanderUid = true → ¬ inc.commanderUid = some uid →
       1 ≤ pendingCount incId db →
       errOf (requestIncidentCommand uid customerId incId sessionId freshId db) =
         some ⟨.alreadyExists, requestPendingMsg⟩) ∧
    (∀ uid customerId sessionId freshId,
       1 ≤ pendingCount incId db →
       okState (requestIncidentCommand uid customerId incId sessionId freshId db) = none) ∧
    (∀ uid customerId iid sessionId freshId v db',
       requestIncidentCommand uid customerId iid sessionId freshId db = .ok (v, db') →
       pendingCount incId db ≤ 1 → pendingCount incId db' ≤ 1) ∧
    (∀ uid rid v db', approveCommandRequest uid rid db = .ok (v, db') →
       pendingCount incId db ≤ 1 → pendingCount incId db' ≤ 1) ∧
    (∀ uid rid v db', denyCommandRequest uid rid db = .ok (v, db') →
       pendingCount incId db ≤ 1 → pendingCount incId db' ≤ 1) := by
  refine ⟨?_, ?_, ?_, ?_, ?_⟩
  · intro uid customerId sessionId freshId inc hii hss hfi hten htr hnot hp
    have h1 : incId.isEmpty = false := by
      cases h : incId.isEmpty
      · rfl
      · exact absurd ((String.isEmpty_iff incId).mp h) hii
    have h2 : sessionId.isEmpty = false := by
      cases h : sessionId.isEmpty
      · rfl
      · exact absurd ((String.isEmpty_iff sessionId).mp h) hss
    have hpf : ¬ pendingFor incId db = [] := by
      intro hnil
      unfold pendingCount at hp
      rw [hnil] at hp
      exact absurd hp (by simp)
    unfold requestIncidentCommand
    simp [h1, h2, hfi, hten, htr, hnot, hpf, errOf]
  · intro uid customerId sessionId freshId hp
    have hpf : ¬ pendingFor incId db = [] := by
      intro hnil
      unfold pendingCount at hp
      rw [hnil] at hp
      exact absurd hp (by simp)
    unfold requestIncidentCommand
    repeat' split
    all_goals rfl
  · intro uid customerId iid sessionId freshId v db' h hle
    unfold requestIncidentCommand at h
    repeat' split at h
    all_goals try exact Except.noConfusion h
    rw [Except.ok.injEq, Prod.mk.injEq] at h
    obtain ⟨-, hdb⟩ := h
    subst hdb
    exact pending_append_le incId iid db _ rfl (not_not.mp (by assumption)) hle
  · intro uid rid v db' h hle
    unfold approveCommandRequest at h
    repeat' split at h
    all_goals try exact Except.noConfusion h
    rw [Except.ok.injEq, Prod.mk.injEq] at h
    obtain ⟨-, hdb⟩ := h
    subst hdb
    unfold pendingCount pendingFor
    exact le_trans (pending_le_of_status_rewrite incId rid "approved" (by decide) db.requests) hle
  · intro uid rid v db' h hle
    unfold denyCommandRequest at h
    repeat' split at h
    all_goals try exact Except.noConfusion h
    rw [Except.ok.injEq, Prod.mk.injEq] at h
    obtain ⟨-, hdb⟩ := h
    subst hdb
    unfold pendingCount pendingFor
    exact le_trans (pending_le_of_status_rewrite incId rid "denied" (by decide) db.requests) hle

/-- C7 witness: with request R pending on incident I, a further request by u3
fails with already-exists. -/
theorem c7_pending_unique_witness :
    errOf (requestIncidentCommand "u3" "T" "I" "s9" "R2" pendingRequestDB) =
      some ⟨.alreadyExists, requestPendingMsg⟩ :=
  (c7_pending_unique "I" pendingRequestDB).1 "u3" "T" "s9" "R2"
    ⟨"I", "T", "Active", some "u1", some "sA"⟩
    (by decide) (by decide) (by decide) (by decide) (by decide) (by decide) (by decide)

/-- C4: whenever the caller already commands a different Active incident of
the tenant, takeIncidentCommand can never commit (so no commander fields
change — errors abort the transaction), and under clean preliminary
validations the failure is precisely permission-denied; and every successful
takeIncidentCommand preserves at-most-one-Active-commanded-incident-per-user
(given Firestore's unique document ids and tenant-consistent commander
records). -/
theorem c4_single_incident_gate
    (uid customerId incidentId sessionId : String) (db : DB) :
    ((∃ j, j ∈ db.incidents ∧ j.customerId = customerId ∧ j.commanderUid = some uid ∧
        j.status = "Active" ∧ ¬ j.id = incidentId) →
      okState (takeIncidentCommand uid customerId incidentId sessionId db) = none ∧
      (∀ s c inc, ¬ incidentId = "" → ¬ sessionId = "" →
        findSession sessionId db = some s → s.uid = uid →
        findCustomer customerId db = some c →
        findIncident incidentId db = some inc → inc.customerId = customerId →
        errKindOf (takeIncidentCommand uid customerId incidentId sessionId db) =
          some .permissionDenied)) ∧
    (∀ v db', takeIncidentCommand uid customerId incidentId sessionId db = .ok (v, db') →
      (db.incidents.map Incident.id).Nodup →
      (∀ i, i ∈ db.incidents → i.commanderUid = some uid → i.customerId = customerId) →
      ∀ u : String, activeCommandCount u db ≤ 1 → activeCommandCount u db' ≤ 1) := by
  constructor
  · intro hex
    have hoth : ¬ otherCommanded uid customerId incidentId db = [] := by
      obtain ⟨j, hj, hjc, hjcmd, hjst, hjne⟩ := hex
      have hmem : j ∈ otherCommanded uid customerId incidentId db := by
        unfold otherCommanded
        refine List.mem_filter.mpr ⟨hj, ?_⟩
        simp [hjc, hjcmd, hjne]
      intro hnil
      rw [hnil] at hmem
      exact absurd hmem (List.not_mem_nil j)
    refine ⟨?_, ?_⟩
    · unfold takeIncidentCommand
      repeat' split
      all_goals rfl
    · intro s c inc h1 h2 hs hsu hc hi hten
      have e1 : incidentId.isEmpty = false := by
        cases h : incidentId.isEmpty
        · rfl
        · exact absurd ((String.isEmpty_iff incidentId).mp h) h1
      have e2 : sessionId.isEmpty = false := by
        cases h : sessionId.isEmpty
        · rfl
        · exact absurd ((String.isEmpty_iff sessionId).mp h) h2
      unfold takeIncidentCommand
      by_cases hlic : orOne c.maxCommandLicenses ≤ commandingCount customerId db
          ∧ ¬ inc.commanderUid = some uid
      · simp [e1, e2, hs, hsu, hc, hi, hten, hlic, errKindOf]
      · simp [e1, e2, hs, hsu, hc, hi, hten, hlic, hoth, errKindOf]
  · intro v db' h hnodup htenant u hle
    unfold takeIncidentCommand at h
    repeat' split at h
    all_goals try exact Except.noConfusion h
    rw [Except.ok.injEq, Prod.mk.injEq] at h
    obtain ⟨-, hdb⟩ := h
    subst hdb
    have hoth : otherCommanded uid customerId incidentId db = [] :=
      not_not.mp (by assumption)
    by_cases hu : u = uid
    · subst hu
      unfold activeCommandCount
      rw [← List.countP_eq_length_filter, List.countP_map]
      have step1 : List.countP
          ((fun i => i.commanderUid == some u && i.status == "Active") ∘
            (fun i => if i.id == incidentId then
              { i with commanderUid := some u, commanderSessionId := some sessionId }
              else i)) db.incidents ≤
          List.countP (fun i => i.id == incidentId) db.incidents := by
        refine List.countP_mono_left (fun i hi hp => ?_)
        by_cases hid : i.id == incidentId
        · exact hid
        · exfalso
          simp only [Function.comp] at hp
          rw [if_neg (by simpa using hid)] at hp
          simp only [Bool.and_eq_true, beq_iff_eq] at hp
          have hmem : i ∈ otherCommanded u customerId incidentId db := by
            unfold otherCommanded
            refine List.mem_filter.mpr ⟨hi, ?_⟩
            simp [htenant i hi hp.1, hp.1, hid]
          rw [hoth] at hmem
          exact absurd hmem (List.not_mem_nil i)
      refine le_trans step1 ?_
      have step2 : List.countP (fun i => i.id == incidentId) db.incidents =
          List.count incidentId (db.incidents.map Incident.id) := by
        rw [List.count_eq_countP, List.countP_map]
        rfl
      rw [step2]
      exact List.nodup_iff_count_le_one.mp hnodup incidentId
    · unfold activeCommandCount at hle ⊢
      rw [← List.countP_eq_length_filter] at hle ⊢
      rw [List.countP_map]
      refine le_trans (List.countP_mono_left (fun i hi hp => ?_)) hle
      by_cases hid : i.id == incidentId
      · exfalso
        simp only [Function.comp] at hp
        rw [if_pos (by simpa using hid)] at hp
        simp only [Bool.and_eq_true, beq_iff_eq, Option.some.injEq] at hp
        exact hu hp.1.symm
      · simp only [Function.comp] at hp
        rw [if_neg (by simpa using hid)] at hp
        exact hp

/-- C4 witness: u1 already commands Active incident I1, so u1's attempt to
take command of I2 cannot commit. -/
theorem c4_single_incident_gate_witness :
    okState (takeIncidentCommand "u1" "T" "I2" "s2" licenseFullDB) = none :=
  ((c4_single_incident_gate "u1" "T" "I2" "s2" licenseFullDB).1
    ⟨⟨"I1", "T", "Active", some "u1", some "sA"⟩,
      by decide, by decide, by decide, by decide, by decide⟩).1

/-- C5 (amended): every listed operation — createSession, takeIncidentCommand,
startNewIncident, closeIncident, reestablishCommand, approveCommandRequest and
both reaper sweeps — preserves the pairing half of the incident consistency
invariant: commanderUid and commanderSessionId are both null or both set.
The stronger clause of the claim, that a set commanderSessionId references an
existing live session owned by commanderUid, is not preserved (see the
counterexample: privileged re-entry deletes the commanding session while
leaving the incident's pointer in place). -/
theorem c5_paired_preserved (db : DB)
    (hnodup : (db.incidents.map Incident.id).Nodup)
    (hdb : ∀ i ∈ db.incidents, cmdPaired i = true) :
    (∀ uid customerId now freshId v db',
       createSession uid customerId now freshId db = .ok (v, db') →
       ∀ i ∈ db'.incidents, cmdPaired i = true) ∧
    (∀ uid customerId incidentId sessionId v db',
       takeIncidentCommand uid customerId incidentId sessionId db = .ok (v, db') →
       ∀ i ∈ db'.incidents, cmdPaired i = true) ∧
    (∀ uid customerId sessionId freshId v db',
       startNewIncident uid customerId sessionId freshId db = .ok (v, db') →
       ∀ i ∈ db'.incidents, cmdPaired i = true) ∧
    (∀ uid customerId incidentId v db',
       closeIncident uid customerId incidentId db = .ok (v, db') →
       ∀ i ∈ db'.incidents, cmdPaired i = true) ∧
    (∀ uid incidentId sessionId v db',
       reestablishCommand uid incidentId sessionId db = .ok (v, db') →
       ∀ i ∈ db'.incidents, cmdPaired i = true) ∧
    (∀ uid requestId v db',
       approveCommandRequest uid requestId db = .ok (v, db') →
       ∀ i ∈ db'.incidents, cmdPaired i = true) ∧
    (∀ now, ∀ i ∈ (cleanupStaleCommandSessions now db).1.incidents, cmdPaired i = true) ∧
    (∀ now, ∀ i ∈ (cleanupOldSessions now db).1.incidents, cmdPaired i = true) := by
  refine ⟨?_, ?_, ?_, ?_, ?_, ?_, ?_, ?_⟩
  · intro uid customerId now freshId v db' h i hi
    unfold createSession at h
    dsimp only [] at h
    repeat' split at h
    all_goals try exact Except.noConfusion h
    all_goals
      rw [Except.ok.injEq, Prod.mk.injEq] at h
    all_goals
      obtain ⟨-, hdbq⟩ := h
    all_goals
      subst hdbq
    all_goals
      exact hdb i hi
  · intro uid customerId incidentId sessionId v db' h i hi
    unfold takeIncidentCommand at h
    repeat' split at h
    all_goals try exact Except.noConfusion h
    rw [Except.ok.injEq, Prod.mk.injEq] at h
    obtain ⟨-, hdbq⟩ := h
    subst hdbq
    simp only [List.mem_map] at hi
    obtain ⟨j, hj, hje⟩ := hi
    by_cases hid : j.id == incidentId
    · rw [if_pos hid] at hje
      subst hje
      rfl
    · rw [if_neg hid] at hje
      subst hje
      exact hdb j hj
  · intro uid customerId sessionId freshId v db' h i hi
    unfold startNewIncident at h
    repeat' split at h
    all_goals try exact Except.noConfusion h
    rw [Except.ok.injEq, Prod.mk.injEq] at h
    obtain ⟨-, hdbq⟩ := h
    subst hdbq
    rcases List.mem_append.mp hi with h' | h'
    · exact hdb i h'
    · rw [List.mem_singleton] at h'
      subst h'
      rfl
  · intro uid customerId incidentId v db' h i hi
    unfold closeIncident at h
    repeat' split at h
    all_goals try exact Except.noConfusion h
    rw [Except.ok.injEq, Prod.mk.injEq] at h
    obtain ⟨-, hdbq⟩ := h
    subst hdbq
    simp only [List.mem_map] at hi
    obtain ⟨j, hj, hje⟩ := hi
    by_cases hid : j.id == incidentId
    · rw [if_pos hid] at hje
      subst hje
      rfl
    · rw [if_neg hid] at hje
      subst hje
      exact hdb j hj
  · intro uid incidentId sessionId v db' h i hi
    unfold reestablishCommand at h
    by_cases he : (incidentId.isEmpty || sessionId.isEmpty) = true
    · rw [if_pos he] at h
      exact Except.noConfusion h
    · rw [if_neg he] at h
      cases hfi : findIncident incidentId db with
      | none =>
        simp only [hfi] at h
        exact Except.noConfusion h
      | some inc =>
        simp only [hfi] at h
        by_cases hcmd : inc.commanderUid = some uid
        · rw [if_neg (not_not_intro hcmd)] at h
          rw [Except.ok.injEq, Prod.mk.injEq] at h
          obtain ⟨-, hdbq⟩ := h
          subst hdbq
          simp only [List.mem_map] at hi
          obtain ⟨j, hj, hje⟩ := hi
          by_cases hid : j.id == incidentId
          · rw [if_pos hid] at hje
            subst hje
            have hfi' : db.incidents.find? (fun x => x.id == incidentId) = some inc := hfi
            have hj_eq : j = inc := by
              refine List.inj_on_of_nodup_map hnodup hj
                (List.mem_of_find?_eq_some hfi') ?_
              have hpred := List.find?_some hfi'
              have h1 : j.id = incidentId := by simpa using hid
              have h2 : inc.id = incidentId := by simpa using hpred
              rw [h1, h2]
            rw [hj_eq]
            simp [cmdPaired, hcmd]
          · rw [if_neg hid] at hje
            subst hje
            exact hdb j hj
        · rw [if_pos hcmd] at h
          exact Except.noConfusion h
  · intro uid requestId v db' h i hi
    unfold approveCommandRequest at h
    by_cases he : requestId.isEmpty = true
    · rw [if_pos he] at h
      exact Except.noConfusion h
    · rw [if_neg he] at h
      cases hfr : findRequest requestId db with
      | none =>
        simp only [hfr] at h
        exact Except.noConfusion h
      | some req =>
        simp only [hfr] at h
        by_cases hauth : req.currentCommanderUid = uid
        · rw [if_neg (not_not_intro hauth)] at h
          by_cases htr : truthy req.requesterSessionId = true
          · rw [if_neg (not_not_intro htr)] at h
            cases hfi : findIncident req.incidentId db with
            | none =>
              simp only [hfi] at h
              exact Except.noConfusion h
            | some inc =>
              simp only [hfi] at h
              rw [Except.ok.injEq, Prod.mk.injEq] at h
              obtain ⟨-, hdbq⟩ := h
              subst hdbq
              simp only [List.mem_map] at hi
              obtain ⟨j, hj, hje⟩ := hi
              by_cases hid : j.id == req.incidentId
              · rw [if_pos hid] at hje
                subst hje
                cases hrs : req.requesterSessionId with
                | none =>
                  rw [hrs] at htr
                  exact absurd htr (by simp [truthy])
                | some rsid =>
                  simp [cmdPaired, hrs]
              · rw [if_neg hid] at hje
                subst hje
                exact hdb j hj
          · rw [if_pos htr] at h
            exact Except.noConfusion h
        · rw [if_pos hauth] at h
          exact Except.noConfusion h
  · intro now i hi
    unfold cleanupStaleCommandSessions at hi
    dsimp only [] at hi
    split at hi
    · exact hdb i hi
    · split at hi
      · exact hdb i hi
      · simp only [List.mem_map] at hi
        obtain ⟨j, hj, hje⟩ := hi
        by_cases hl : lockedByStale now db j = true
        · rw [if_pos hl] at hje
          subst hje
          rfl
        · rw [if_neg hl] at hje
          subst hje
          exact hdb j hj
  · intro now i hi
    unfold cleanupOldSessions at hi
    dsimp only [] at hi
    split at hi
    · exact hdb i hi
    · exact hdb i hi

/-- C5 witness: on the reaper store (whose incidents all satisfy the pairing
invariant), the hourly sweep leaves incident I with both commander fields
null — still paired. -/
theorem c5_paired_preserved_witness :
    cmdPaired ⟨"I", "T", "Active", none, none⟩ = true :=
  (c5_paired_preserved reaperDB (by decide) (by decide)).2.2.2.2.2.2.1 10000000
    ⟨"I", "T", "Active", none, none⟩ (by decide)

/-- Mapping a function that fixes every element of a list is the identity. -/
theorem map_eq_self_of_eq {α : Type} (l : List α) (f : α → α)
    (h : ∀ a ∈ l, f a = a) : l.map f = l := by
  induction l with
  | nil => rfl
  | cons a t ih =>
    simp only [List.map_cons, h a (by simp)]
    rw [ih (fun b hb => h b (by simp [hb]))]

/-- Membership characterization of the hourly sweep's stale-session-id list. -/
theorem mem_staleSessionIds {now : Int} {db : DB} {sid : String} :
    sid ∈ staleSessionIds now db ↔
      ∃ s, s ∈ db.sessions ∧ staleAt now s ∧ s.id = sid := by
  unfold staleSessionIds
  simp only [List.mem_map, List.mem_filter, decide_eq_true_eq]
  constructor
  · rintro ⟨s, ⟨hs, hst⟩, hid⟩
    exact ⟨s, hs, hst, hid⟩
  · rintro ⟨s, hs, hst, hid⟩
    exact ⟨s, ⟨hs, hst⟩, hid⟩

/-- Unfolding of the sweep's locked-incident test. -/
theorem lockedByStale_iff {now : Int} {db : DB} {i : Incident} :
    lockedByStale now db i = true ↔
      i.status = "Active" ∧ ∃ sid, i.commanderSessionId = some sid ∧
        sid ∈ staleSessionIds now db := by
  unfold lockedByStale
  cases h : i.commanderSessionId with
  | none => simp [h]
  | some sid =>
    simp only [h, Bool.and_eq_true, beq_iff_eq, List.elem_iff, Option.some.injEq]
    constructor
    · rintro ⟨hst, hmem⟩
      exact ⟨hst, sid, rfl, hmem⟩
    · rintro ⟨hst, sid2, heq, hmem⟩
      cases heq
      exact ⟨hst, hmem⟩

/-- C9: the hourly sweep clears the commander fields of exactly the Active
incidents whose recorded commanderSessionId is a stale session; a session
survives the sweep iff it is not both stale and recorded as the commanding
session of some Active incident (in particular stale sessions holding no
command lock are never deleted); and a second run in which no session has
newly become stale performs zero writes and leaves the store unchanged. -/
theorem c9_hourly_sweep (now : Int) (db : DB)
    (hnodup : (db.sessions.map Session.id).Nodup) :
    ((cleanupStaleCommandSessions now db).1.incidents = db.incidents.map (fun i =>
       if lockedByStale now db i then
         { i with commanderUid := none, commanderSessionId := none } else i)) ∧
    (∀ s, s ∈ (cleanupStaleCommandSessions now db).1.sessions ↔
       (s ∈ db.sessions ∧ ¬(staleAt now s ∧ recordsAsCommander db s.id))) ∧
    (∀ now2, (∀ s ∈ (cleanupStaleCommandSessions now db).1.sessions,
         staleAt now2 s → staleAt now s) →
       cleanupStaleCommandSessions now2 (cleanupStaleCommandSessions now db).1 =
         ((cleanupStaleCommandSessions now db).1, 0)) := by
  have hinc : (cleanupStaleCommandSessions now db).1.incidents = db.incidents.map (fun i =>
      if lockedByStale now db i then
        { i with commanderUid := none, commanderSessionId := none } else i) := by
    unfold cleanupStaleCommandSessions
    dsimp only []
    split
    · rename_i hse
      refine (map_eq_self_of_eq _ _ ?_).symm
      intro i _
      have hnl : ¬ lockedByStale now db i = true := by
        intro hl
        rw [lockedByStale_iff] at hl
        obtain ⟨-, sid, -, hsid⟩ := hl
        rw [mem_staleSessionIds] at hsid
        obtain ⟨s, hs, hstale, -⟩ := hsid
        have hmem : s ∈ db.sessions.filter (fun s => decide (staleAt now s)) :=
          List.mem_filter.mpr ⟨hs, by simpa using hstale⟩
        rw [List.isEmpty_iff.mp hse] at hmem
        exact absurd hmem (List.not_mem_nil s)
      rw [if_neg hnl]
    · split
      · rename_i hse hle
        refine (map_eq_self_of_eq _ _ ?_).symm
        intro i hi
        have hnl : ¬ lockedByStale now db i = true :=
          (List.filter_eq_nil_iff.mp (List.isEmpty_iff.mp hle)) i hi
        rw [if_neg hnl]
      · rfl
  have hsub : ∀ s ∈ (cleanupStaleCommandSessions now db).1.sessions, s ∈ db.sessions := by
    intro s hs
    unfold cleanupStaleCommandSessions at hs
    dsimp only [] at hs
    split at hs
    · exact hs
    · split at hs
      · exact hs
      · exact List.mem_of_mem_filter hs
  refine ⟨hinc, ?_, ?_⟩
  · intro s
    unfold cleanupStaleCommandSessions
    dsimp only []
    split
    · rename_i hse
      constructor
      · intro hs
        refine ⟨hs, ?_⟩
        rintro ⟨hstale, -⟩
        have hmem : s ∈ db.sessions.filter (fun s => decide (staleAt now s)) :=
          List.mem_filter.mpr ⟨hs, by simpa using hstale⟩
        rw [List.isEmpty_iff.mp hse] at hmem
        exact absurd hmem (List.not_mem_nil s)
      · exact fun h => h.1
    · split
      · rename_i hse hle
        constructor
        · intro hs
          refine ⟨hs, ?_⟩
          rintro ⟨hstale, i, hi, hact, hsid⟩
          have hli : lockedByStale now db i = true :=
            lockedByStale_iff.mpr
              ⟨hact, s.id, hsid, mem_staleSessionIds.mpr ⟨s, hs, hstale, rfl⟩⟩
          have hmem : i ∈ db.incidents.filter (lockedByStale now db) :=
            List.mem_filter.mpr ⟨hi, hli⟩
          rw [List.isEmpty_iff.mp hle] at hmem
          exact absurd hmem (List.not_mem_nil i)
        · exact fun h => h.1
      · rw [List.mem_filter]
        constructor
        · rintro ⟨hs, hbn⟩
          refine ⟨hs, ?_⟩
          rintro ⟨hstale, i, hi, hact, hsid⟩
          have hli : lockedByStale now db i = true :=
            lockedByStale_iff.mpr
              ⟨hact, s.id, hsid, mem_staleSessionIds.mpr ⟨s, hs, hstale, rfl⟩⟩
          have hmem : s.id ∈ ((db.incidents.filter
              (lockedByStale now db)).filterMap Incident.commanderSessionId).dedup := by
            rw [List.mem_dedup, List.mem_filterMap]
            exact ⟨i, List.mem_filter.mpr ⟨hi, hli⟩, hsid⟩
          have hc : ((db.incidents.filter
              (lockedByStale now db)).filterMap Incident.commanderSessionId).dedup.contains
                s.id = true := List.elem_eq_true_of_mem hmem
          rw [hc] at hbn
          exact absurd hbn (by decide)
        · rintro ⟨hs, hcond⟩
          refine ⟨hs, ?_⟩
          have hnm : ¬ s.id ∈ ((db.incidents.filter
              (lockedByStale now db)).filterMap Incident.commanderSessionId).dedup := by
            intro hmem
            rw [List.mem_dedup, List.mem_filterMap] at hmem
            obtain ⟨i, hif, hsid⟩ := hmem
            have hii := (List.mem_filter.mp hif).1
            have hli := (List.mem_filter.mp hif).2
            rw [lockedByStale_iff] at hli
            obtain ⟨hact, sid, hsid2, hsmem⟩ := hli
            rw [hsid2, Option.some.injEq] at hsid
            rw [mem_staleSessionIds] at hsmem
            obtain ⟨t, htmem, htstale, htid⟩ := hsmem
            have hts : t = s :=
              List.inj_on_of_nodup_map hnodup htmem hs (by rw [htid, hsid])
            subst hts
            exact hcond ⟨htstale, i, hii, hact, by rw [hsid2, hsid]⟩
          have hcf : (((db.incidents.filter
              (lockedByStale now db)).filterMap Incident.commanderSessionId).dedup).contains
                s.id = false := by
            cases hcb : (((db.incidents.filter
                (lockedByStale now db)).filterMap Incident.commanderSessionId).dedup).contains
                  s.id
            · rfl
            · exact absurd (List.elem_iff.mp hcb) hnm

          rw [hcf]
          rfl
  · intro now2 hmono
    have hlock2 : (cleanupStaleCommandSessions now db).1.incidents.filter
        (lockedByStale now2 (cleanupStaleCommandSessions now db).1) = [] := by
      rw [List.filter_eq_nil_iff]
      intro i' hi' hl
      rw [lockedByStale_iff] at hl
      obtain ⟨hact, sid, hsid, hmem⟩ := hl
      rw [mem_staleSessionIds] at hmem
      obtain ⟨s, hsmem, hstale2, hsid_eq⟩ := hmem
      have hstale1 : staleAt now s := hmono s hsmem hstale2
      have hsdb : s ∈ db.sessions := hsub s hsmem
      rw [hinc] at hi'
      simp only [List.mem_map] at hi'
      obtain ⟨j, hj, hje⟩ := hi'
      by_cases hlj : lockedByStale now db j = true
      · rw [if_pos hlj] at hje
        subst hje
        exact Option.noConfusion hsid
      · rw [if_neg hlj] at hje
        subst hje
        exact hlj (lockedByStale_iff.mpr
          ⟨hact, sid, hsid, mem_staleSessionIds.mpr ⟨s, hsdb, hstale1, hsid_eq⟩⟩)
    generalize (cleanupStaleCommandSessions now db).1 = db1 at hlock2 ⊢
    unfold cleanupStaleCommandSessions
    dsimp only []
    split
    · rfl
    · rw [if_pos (by rw [hlock2]; rfl)]

/-- C9 witness: on the reaper store the sweep is idempotent — an immediate
second run at the same instant changes nothing and performs zero writes. -/
theorem c9_hourly_sweep_witness :
    cleanupStaleCommandSessions 10000000
        (cleanupStaleCommandSessions 10000000 reaperDB).1 =
      ((cleanupStaleCommandSessions 10000000 reaperDB).1, 0) :=
  (c9_hourly_sweep 10000000 reaperDB (by decide)).2.2 10000000 (fun s hs h => h)

/-- Deleting every session with a given id removes at least one element from
any filtered count that the deleted document contributed to. -/
theorem filter_remove_len (p : Session → Bool) (sid : String) :
    ∀ (l : List Session), (∃ s0, s0 ∈ l ∧ s0.id = sid ∧ p s0 = true) →
      ((l.filter (fun s => !(s.id == sid))).filter p).length + 1 ≤
        (l.filter p).length := by
  intro l
  induction l with
  | nil =>
    rintro ⟨s0, hs0, -, -⟩
    exact absurd hs0 (List.not_mem_nil s0)
  | cons a t ih =>
    rintro ⟨s0, hs0, hid, hp⟩
    have hsub : ((t.filter (fun s => !(s.id == sid))).filter p).length ≤
        (t.filter p).length :=
      List.Sublist.length_le (List.Sublist.filter p (List.filter_sublist t))
    rcases List.mem_cons.mp hs0 with rfl | hmem
    · have hqa : (!(s0.id == sid)) = false := by simp [hid]
      simp [List.filter_cons, List.filter_filter, hqa, hp] at hsub ⊢
      omega
    · have ht := ih ⟨s0, hmem, hid, hp⟩
      by_cases hqa : (!(a.id == sid)) = true
      · by_cases hpa : p a = true
        · simp [List.filter_cons, List.filter_filter, hqa, hpa] at ht ⊢
          omega
        · simp [List.filter_cons, List.filter_filter, hqa, hpa] at ht ⊢
          omega
      · have hqa' : (!(a.id == sid)) = false := by
          cases hb : (!(a.id == sid))
          · rfl
          · exact absurd hb hqa
        by_cases hpa : p a = true
        · simp [List.filter_cons, List.filter_filter, hqa', hpa] at ht ⊢
          omega
        · simp [List.filter_cons, List.filter_filter, hqa', hpa] at ht ⊢
          omega

/-- Deleting all sessions with id `sid` and inserting one new session keeps
every tenant count bounded by its previous value, provided the deleted id
belonged to an existing session of the new session's tenant. -/
theorem sessions_swap_count_le (l : List Session) (T sid : String)
    (newS : Session)
    (hwit : newS.customerId = T → ∃ s, s ∈ l ∧ s.id = sid ∧ s.customerId = T) :
    ((l.filter (fun s => !(s.id == sid)) ++ [newS]).filter
        (fun s => s.customerId == T)).length ≤
      (l.filter (fun s => s.customerId == T)).length := by
  rw [List.filter_append, List.length_append]
  by_cases hn : newS.customerId = T
  · obtain ⟨s0, hs0, hid, hcid⟩ := hwit hn
    have hrem := filter_remove_len (fun s => s.customerId == T) sid l
      ⟨s0, hs0, hid, by simp [hcid]⟩
    have hsingle : (([newS]).filter (fun s => s.customerId == T)).length ≤ 1 := by
      by_cases hb : (newS.customerId == T) = true
      · simp [List.filter, hb]
      · simp [List.filter, hb]
    omega
  · have hb : (newS.customerId == T) = false := by
      cases hbb : newS.customerId == T
      · rfl
      · exact absurd (by simpa using hbb) hn
    have hsingle : (([newS]).filter (fun s => s.customerId == T)).length = 0 := by
      simp [List.filter, hb]
    have hmono : ((l.filter (fun s => !(s.id == sid))).filter
        (fun s => s.customerId == T)).length ≤
          (l.filter (fun s => s.customerId == T)).length :=
      List.Sublist.length_le (List.Sublist.filter _ (List.filter_sublist l))
    omega

/-- One fold step of the oldest-stale search returns the accumulator or the
scanned session. -/
theorem staleCandidate_step (cIds : List String) (now : Int) (acc : Option Session)
    (a v : Session) (h : staleCandidate cIds now acc a = some v) :
    acc = some v ∨ v = a := by
  unfold staleCandidate at h
  by_cases hc : (¬ cIds.contains a.id = true ∧ bumpStaleAt now a)
  · rw [if_pos hc] at h
    cases acc with
    | none =>
      refine Or.inr ?_
      injection h with h
      exact h.symm
    | some o =>
      dsimp only [] at h
      by_cases hlt : a.lastActive < o.lastActive
      · rw [if_pos hlt] at h
        refine Or.inr ?_
        injection h with h
        exact h.symm
      · rw [if_neg hlt] at h
        exact Or.inl h
  · rw [if_neg hc] at h
    exact Or.inl h

/-- The oldest-stale search returns the accumulator or a member of the list. -/
theorem staleCandidate_mem (cIds : List String) (now : Int) :
    ∀ (l : List Session) (acc : Option Session) (v : Session),
      l.foldl (staleCandidate cIds now) acc = some v →
      acc = some v ∨ v ∈ l := by
  intro l
  induction l with
  | nil =>
    intro acc v h
    exact Or.inl h
  | cons a t ih =>
    intro acc v h
    rcases ih (staleCandidate cIds now acc a) v h with hstep | hmem
    · rcases staleCandidate_step cIds now acc a v hstep with hacc | hva
      · exact Or.inl hacc
      · exact Or.inr (hva ▸ List.mem_cons_self a t)
    · exact Or.inr (List.mem_cons_of_mem a hmem)

/-- C1 (amended): a single createSession or endSession call preserves
count(Session, T) ≤ maxTotalSessions(T) for every tenant T, provided that
every Active incident of the calling tenant commanded by the caller whose
recorded commanderSessionId is non-null points at an existing session of
that tenant.  Without that proviso the claim is false: the privileged
re-entry path deletes by the recorded id, and when that pointer dangles
(exactly the state privileged re-entry itself leaves behind) the deletion
frees no slot and the new session exceeds the quota (see the
counterexample). -/
theorem c1_quota_preserved
    (uid customerId : String) (now : Int) (freshId : String) (db : DB)
    (hlive : ∀ i ∈ db.incidents, i.customerId = customerId → i.status = "Active" →
       i.commanderUid = some uid → ∀ sid, i.commanderSessionId = some sid → ¬ sid = "" →
       ∃ s, s ∈ db.sessions ∧ s.id = sid ∧ s.customerId = customerId) :
    (∀ v db', createSession uid customerId now freshId db = .ok (v, db') →
       ∀ T, sessionCount T db ≤ maxTotalSessionsOf T db →
         sessionCount T db' ≤ maxTotalSessionsOf T db') ∧
    (∀ uid2 sessionId v db', endSession uid2 sessionId db = .ok (v, db') →
       ∀ T, sessionCount T db ≤ maxTotalSessionsOf T db →
         sessionCount T db' ≤ maxTotalSessionsOf T db') := by
  have hmaxpres : ∀ (l : List Session) (T : String),
      maxTotalSessionsOf T { db with sessions := l } = maxTotalSessionsOf T db :=
    fun l T => rfl
  constructor
  · intro v db' h T hpre
    unfold createSession at h
    dsimp only [] at h
    cases hc : findCustomer customerId db with
    | none =>
      rw [hc] at h
      exact Except.noConfusion h
    | some c =>
      rw [hc] at h
      dsimp only [] at h
      by_cases hopen : sessionCount customerId db < orOne c.maxTotalSessions
      · rw [if_pos hopen] at h
        rw [Except.ok.injEq, Prod.mk.injEq] at h
        obtain ⟨-, hdb⟩ := h
        subst hdb
        rw [hmaxpres]
        by_cases hT : T = customerId
        · subst hT
          have hmx : maxTotalSessionsOf T db = orOne c.maxTotalSessions := by
            unfold maxTotalSessionsOf
            rw [hc]
            rfl
          have hcount : sessionCount T { db with sessions := db.sessions ++
              [⟨freshId, uid, T, now, now⟩] } = sessionCount T db + 1 := by
            unfold sessionCount tenantSessions
            simp [List.filter_append]
          rw [hcount, hmx]
          omega
        · have hb : (customerId == T) = false := by
            cases hbb : customerId == T
            · rfl
            · exact absurd (by simpa using hbb) (fun (he : customerId = T) => hT he.symm)
          have hcount : sessionCount T { db with sessions := db.sessions ++
              [⟨freshId, uid, customerId, now, now⟩] } = sessionCount T db := by
            unfold sessionCount tenantSessions
            simp [List.filter_append, List.filter_cons, hb]
          rw [hcount]
          exact hpre
      · rw [if_neg hopen] at h
        cases hpriv : (commandedBy uid customerId db).head?.bind (fun incidentDoc =>
            if truthy incidentDoc.commanderSessionId = true then
              incidentDoc.commanderSessionId
            else none) with
        | some oldSid =>
          rw [hpriv] at h
          dsimp only [] at h
          rw [Except.ok.injEq, Prod.mk.injEq] at h
          obtain ⟨-, hdb⟩ := h
          subst hdb
          rw [hmaxpres]
          refine le_trans ?_ hpre
          unfold sessionCount tenantSessions
          refine sessions_swap_count_le db.sessions T oldSid _ ?_
          intro hn
          cases hh : (commandedBy uid customerId db).head? with
          | none =>
            rw [hh] at hpriv
            exact Option.noConfusion hpriv
          | some inc =>
            rw [hh] at hpriv
            simp only [Option.some_bind] at hpriv
            by_cases htr : truthy inc.commanderSessionId = true
            · rw [if_pos htr] at hpriv
              have hone : ¬ oldSid = "" := by
                intro he
                rw [hpriv, he] at htr
                exact absurd htr (by decide)
              have hmem : inc ∈ commandedBy uid customerId db := by
                obtain ⟨ys, hys⟩ := List.head?_eq_some_iff.mp hh
                rw [hys]
                exact List.mem_cons_self inc ys
              unfold commandedBy at hmem
              rw [List.mem_filter] at hmem
              obtain ⟨hmemdb, hpred⟩ := hmem
              simp only [Bool.and_eq_true, beq_iff_eq] at hpred
              obtain ⟨⟨hcid, hcmd⟩, hact⟩ := hpred
              obtain ⟨s0, hs0, hs0id, hs0cid⟩ :=
                hlive inc hmemdb hcid hact hcmd oldSid hpriv hone
              refine ⟨s0, hs0, hs0id, ?_⟩
              rw [hs0cid]
              exact hn
            · rw [if_neg htr] at hpriv
              exact Option.noConfusion hpriv
        | none =>
          rw [hpriv] at h
          dsimp only [] at h
          cases hf : (tenantSessions customerId db).foldl
              (staleCandidate ((activeSessionCommanded customerId db).filterMap
                Incident.commanderSessionId) now) none with
          | none =>
            rw [hf] at h
            exact Except.noConfusion h
          | some victim =>
            rw [hf] at h
            rw [Except.ok.injEq, Prod.mk.injEq] at h
            obtain ⟨-, hdb⟩ := h
            subst hdb
            rw [hmaxpres]
            refine le_trans ?_ hpre
            unfold sessionCount tenantSessions
            refine sessions_swap_count_le db.sessions T victim.id _ ?_
            intro hn
            have hvmem : victim ∈ tenantSessions customerId db := by
              rcases staleCandidate_mem _ now (tenantSessions customerId db) none
                  victim hf with h' | h'
              · exact Option.noConfusion h'
              · exact h'
            unfold tenantSessions at hvmem
            rw [List.mem_filter] at hvmem
            obtain ⟨hvdb, hvcid⟩ := hvmem
            refine ⟨victim, hvdb, rfl, ?_⟩
            rw [show victim.customerId = customerId from by simpa using hvcid]
            exact hn
  · intro uid2 sessionId v db' h T hpre
    unfold endSession at h
    repeat' split at h
    all_goals try exact Except.noConfusion h
    all_goals rw [Except.ok.injEq, Prod.mk.injEq] at h
    all_goals obtain ⟨-, hdb⟩ := h
    all_goals subst hdb
    all_goals first
      | exact hpre
      | (rw [hmaxpres]
         refine le_trans ?_ hpre
         unfold sessionCount tenantSessions
         exact List.Sublist.length_le (List.Sublist.filter _ (List.filter_sublist _)))

/-- C1 witness: Scenario B's privileged re-entry on a healthy store (the
recorded commanding session sA exists) keeps tenant T at its quota of 1. -/
theorem c1_quota_preserved_witness :
    sessionCount "T" { scenarioBDB with sessions :=
        (scenarioBDB.sessions.filter (fun s => !(s.id == "sA"))) ++
          [⟨"sB", "u1", "T", 100, 100⟩] } ≤
      maxTotalSessionsOf "T" { scenarioBDB with sessions :=
        (scenarioBDB.sessions.filter (fun s => !(s.id == "sA"))) ++
          [⟨"sB", "u1", "T", 100, 100⟩] } :=
  (c1_quota_preserved "u1" "T" 100 "sB" scenarioBDB (by decide)).1 "sB" _ rfl
    "T" (by decide)

end NetResponders
